import Mathlib

/-!
Verification of the cache-aside proxy in src/main.go.

The core under verification is:
* type User (main.go lines 26-31),
* the cache layer UserCache with Get / Set / List guarded by a sync.RWMutex
  (lines 35-67),
* the proxy CachedUserRep with Create / List / GetByEmail (lines 69-118),
* the store-level UserRep.GetByEmail not-found mapping (lines 155-163).

Modelling choices, each forced by the Go source:
* Go's map[string]*User is modelled as an association list with at most one
  entry per key; map assignment inserts or overwrites; Go's map iteration
  order is unspecified, so the snapshot order produced here is one admissible
  order.
* Pointers (*User) are modelled by values. In the populate loop of
  CachedUserRep.List the source stores &user where user is the per-iteration
  loop variable (Go >= 1.22 semantics), so every stored pointer refers to a
  private copy of one iterated record, and nothing in the core mutates a
  record through a shared pointer afterwards; value semantics is therefore
  observationally faithful.
* The wrapped store is the interface UserRepository; the proxy only observes
  the response of the one store call an operation makes, so each proxy
  operation is a pure function of the current cache state and that response,
  returning the Go result pair, the new cache state, and the number of store
  calls performed.
* Go errors are an opaque type with the one distinguished value sql.ErrNoRows
  that the code compares against.
* A Go slice result is Option (List User): none models a nil slice, some xs a
  non-nil one; ranging over a nil slice iterates zero times, like ranging
  over an empty one.
-/

/-- User record, main.go lines 26-31. -/
structure User where
  email : String
  password : String
  name : String
  age : Int
deriving DecidableEq, Repr

/-- Opaque Go error values; errNoRows models sql.ErrNoRows, the only error
value the core compares against; other covers every other store error. -/
inductive StoreErr where
  | errNoRows : StoreErr
  | other : String → StoreErr
deriving DecidableEq, Repr

/-- The cache's map[string]*User, as an association list with at most one
entry per key (main.go line 36). -/
abbrev UserCache := List (String × User)

/-- UserCache.Get (main.go lines 46-51): map lookup, returning the entry and
a found flag, here fused into one Option. -/
def UserCache.Get (c : UserCache) (email : String) : Option User :=
  match c with
  | [] => none
  | p :: rest => if p.1 = email then some p.2 else UserCache.Get rest email

/-- Removal of every entry for a key, the helper realizing overwrite in the
association-list model of the Go map. -/
def UserCache.eraseKey (c : UserCache) (email : String) : UserCache :=
  match c with
  | [] => []
  | p :: rest =>
      if p.1 = email then UserCache.eraseKey rest email
      else p :: UserCache.eraseKey rest email

/-- UserCache.Set (main.go lines 53-57): map assignment, inserting or
overwriting the entry for that email. -/
def UserCache.Set (c : UserCache) (email : String) (user : User) : UserCache :=
  (email, user) :: UserCache.eraseKey c email

/-- UserCache.List (main.go lines 59-67): a point-in-time copy of all current
entries, in one admissible iteration order. -/
def UserCache.List (c : UserCache) : List User :=
  c.map Prod.snd

/-! The proxy CachedUserRep (main.go lines 69-118). Each operation makes at
most one call on the wrapped UserRepository; the operation is a pure function
of the current cache state and that call's response. -/

/-- Outcome of one proxy operation: the value the Go function returns, the
cache state afterwards, and how many store calls were made. -/
structure ProxyOut (α : Type) where
  result : α
  cache : UserCache
  storeCalls : Nat
deriving DecidableEq, Repr

/-- Go pair returned by (*User, error) functions: the possibly-nil pointer
and the possibly-nil error. -/
abbrev UserResult := Option User × Option StoreErr

/-- Go pair returned by ([]User, error) functions: the slice (none models a
nil slice) and the possibly-nil error. -/
abbrev ListResult := Option (List User) × Option StoreErr

/-- CachedUserRep.Create (main.go lines 81-87): delegate to the store; on
success write the record into the cache under its email; return the store's
error. storeErr is the wrapped repository's response to the one Create call. -/
def CachedUserRep.Create (cache : UserCache) (user : User)
    (storeErr : Option StoreErr) : ProxyOut (Option StoreErr) :=
  match storeErr with
  | none => ⟨none, UserCache.Set cache user.email user, 1⟩
  | some e => ⟨some e, cache, 1⟩

/-- The populate loop of CachedUserRep.List (main.go lines 97-99): one
cache.Set per returned record, in order. -/
def populate (cache : UserCache) (users : List User) : UserCache :=
  users.foldl (fun acc u => UserCache.Set acc u.email u) cache

/-- CachedUserRep.List (main.go lines 89-102): return the cache snapshot when
it is non-empty; otherwise delegate to the store, populate the cache
entry-by-entry on success, and return the store's pair verbatim. storeResp is
the wrapped repository's response to the one List call, consulted only on the
cold path. Ranging over a nil slice iterates zero times. -/
def CachedUserRep.List (cache : UserCache) (storeResp : ListResult) :
    ProxyOut ListResult :=
  let cachedUsers := UserCache.List cache
  if 0 < cachedUsers.length then
    ⟨(some cachedUsers, none), cache, 0⟩
  else
    match storeResp with
    | (users, none) => ⟨(users, none), populate cache (users.getD []), 1⟩
    | (users, some e) => ⟨(users, some e), cache, 1⟩

/-- CachedUserRep.GetByEmail (main.go lines 104-118): on a cache hit return
the cached record with no store call; on a miss delegate, map sql.ErrNoRows
to (nil, nil), cache a found record under the queried email, and return the
store's pair. storeResp is the wrapped repository's response to the one
GetByEmail call, consulted only on a miss. -/
def CachedUserRep.GetByEmail (cache : UserCache) (email : String)
    (storeResp : UserResult) : ProxyOut UserResult :=
  match UserCache.Get cache email with
  | some user => ⟨(some user, none), cache, 0⟩
  | none =>
    match storeResp with
    | (_, some StoreErr.errNoRows) => ⟨(none, none), cache, 1⟩
    | (some user, none) => ⟨(some user, none), UserCache.Set cache email user, 1⟩
    | (user, err) => ⟨(user, err), cache, 1⟩

/-- UserRep.GetByEmail (main.go lines 155-163): scan the row; sql.ErrNoRows
becomes (nil, nil); otherwise the scanned record's address is returned along
with the scan error. scanErr and scanned model what row.Scan produced: on a
successful scan scanned is the stored row, on a failed one it is whatever
Scan left in the local variable (the zero value unless partially written). -/
def UserRep.GetByEmail (scanErr : Option StoreErr) (scanned : User) :
    UserResult :=
  match scanErr with
  | some StoreErr.errNoRows => (none, none)
  | e => (some scanned, e)

/-! The lock discipline of UserCache (main.go lines 35-67). The cache's only
synchronization is the single sync.RWMutex of the UserCache value; each
operation acquires it in the mode the source shows, for its whole body. -/

/-- Acquisition mode on the cache's sync.RWMutex. -/
inductive LockMode where
  | read
  | write
deriving DecidableEq, Repr

/-- The three cache operations, as named in the source. -/
inductive CacheOp where
  | get : String → CacheOp
  | set : String → User → CacheOp
  | list : CacheOp
deriving DecidableEq, Repr

/-- The mutex mode each cache operation acquires: Get and List call RLock
(lines 47, 60), Set calls Lock (line 54). -/
def CacheOp.lockMode : CacheOp → LockMode
  | CacheOp.get _ => LockMode.read
  | CacheOp.set _ _ => LockMode.write
  | CacheOp.list => LockMode.read

/-- sync.RWMutex semantics: two acquisitions can be held at the same time,
so the two operations can proceed without blocking each other, exactly when
both are read acquisitions; a writer excludes every other holder. -/
def LockMode.compatible : LockMode → LockMode → Bool
  | LockMode.read, LockMode.read => true
  | _, _ => false

/-- Sample record used in concrete witnesses. -/
def alice : User := ⟨"alice@example.com", "pw1", "Alice", 30⟩

/-- Second sample record used in concrete witnesses. -/
def bob : User := ⟨"bob@example.com", "pw2", "Bob", 25⟩

/-- First of two records sharing an email, for the overwrite counterexample. -/
def dupA : User := ⟨"a", "p1", "n1", 21⟩

/-- Second of two records sharing an email, for the overwrite counterexample. -/
def dupB : User := ⟨"a", "p2", "n2", 22⟩

/-! Basic lemmas about the cache map. -/

theorem UserCache.get_set_self (c : UserCache) (email : String) (u : User) :
    UserCache.Get (UserCache.Set c email u) email = some u := by
  simp [UserCache.Get, UserCache.Set]

theorem UserCache.get_eraseKey_ne (c : UserCache) (e e' : String) (h : e' ≠ e) :
    UserCache.Get (UserCache.eraseKey c e) e' = UserCache.Get c e' := by
  induction c with
  | nil => rfl
  | cons p rest ih =>
    simp only [UserCache.eraseKey, UserCache.Get]
    by_cases hpe : p.1 = e
    · rw [if_pos hpe]
      have hpe' : p.1 ≠ e' := fun hc => h (hc ▸ hpe)
      rw [if_neg hpe', ih]
    · rw [if_neg hpe]
      simp only [UserCache.Get]
      by_cases hpe' : p.1 = e'
      · rw [if_pos hpe', if_pos hpe']
      · rw [if_neg hpe', if_neg hpe', ih]

theorem UserCache.get_set_ne (c : UserCache) (e e' : String) (u : User)
    (h : e' ≠ e) :
    UserCache.Get (UserCache.Set c e u) e' = UserCache.Get c e' := by
  have hne : e ≠ e' := fun hc => h hc.symm
  simp only [UserCache.Set, UserCache.Get, hne, if_false]
  exact UserCache.get_eraseKey_ne c e e' h

theorem UserCache.get_set_isSome (c : UserCache) (e e' : String) (u : User)
    (h : (UserCache.Get c e').isSome = true) :
    (UserCache.Get (UserCache.Set c e u) e').isSome = true := by
  by_cases he : e' = e
  · subst he
    rw [UserCache.get_set_self]
    rfl
  · rw [UserCache.get_set_ne c e e' u he]
    exact h


/-! Lemmas about the populate loop and the list paths. -/

theorem populate_nil (c : UserCache) : populate c [] = c := rfl

theorem populate_cons (c : UserCache) (u : User) (us : List User) :
    populate c (u :: us) = populate (UserCache.Set c u.email u) us := rfl

theorem populate_get_not_mem (us : List User) (c : UserCache) (e : String)
    (h : e ∉ us.map User.email) :
    UserCache.Get (populate c us) e = UserCache.Get c e := by
  induction us generalizing c with
  | nil => rfl
  | cons u rest ih =>
    rw [List.map_cons, List.mem_cons] at h
    push_neg at h
    rw [populate_cons, ih (UserCache.Set c u.email u) h.2,
      UserCache.get_set_ne c u.email e u h.1]

theorem populate_get_mem (us : List User) (c : UserCache) (u : User)
    (hmem : u ∈ us) (hnodup : (us.map User.email).Nodup) :
    UserCache.Get (populate c us) u.email = some u := by
  induction us generalizing c with
  | nil => cases hmem
  | cons v rest ih =>
    rw [List.map_cons, List.nodup_cons] at hnodup
    rw [populate_cons]
    rcases List.mem_cons.mp hmem with hv | hv
    · subst hv
      rw [populate_get_not_mem rest _ _ hnodup.1, UserCache.get_set_self]
    · exact ih (UserCache.Set c v.email v) hv hnodup.2

theorem populate_get_isSome (us : List User) (c : UserCache) (e : String)
    (h : (UserCache.Get c e).isSome = true) :
    (UserCache.Get (populate c us) e).isSome = true := by
  induction us generalizing c with
  | nil => exact h
  | cons u rest ih =>
    rw [populate_cons]
    exact ih _ (UserCache.get_set_isSome c u.email e u h)

theorem cachedList_warm (c : UserCache) (storeResp : ListResult)
    (h : UserCache.List c ≠ []) :
    CachedUserRep.List c storeResp = ⟨(some (UserCache.List c), none), c, 0⟩ := by
  have hl : 0 < (UserCache.List c).length := List.length_pos.mpr h
  simp [CachedUserRep.List, hl]

theorem cachedList_cold_ok (c : UserCache) (us : Option (List User))
    (h : UserCache.List c = []) :
    CachedUserRep.List c (us, none) = ⟨(us, none), populate c (us.getD []), 1⟩ := by
  have hl : ¬ 0 < (UserCache.List c).length := by simp [h]
  simp [CachedUserRep.List, hl]

theorem cachedList_cold_err (c : UserCache) (us : Option (List User))
    (e : StoreErr) (h : UserCache.List c = []) :
    CachedUserRep.List c (us, some e) = ⟨(us, some e), c, 1⟩ := by
  have hl : ¬ 0 < (UserCache.List c).length := by simp [h]
  simp [CachedUserRep.List, hl]

theorem getByEmail_cache_cases (c : UserCache) (e : String)
    (storeResp : UserResult) :
    (CachedUserRep.GetByEmail c e storeResp).cache = c ∨
    ∃ u, (CachedUserRep.GetByEmail c e storeResp).cache = UserCache.Set c e u := by
  unfold CachedUserRep.GetByEmail
  cases hget : UserCache.Get c e with
  | some u => left; rfl
  | none =>
    obtain ⟨usr, err⟩ := storeResp
    cases err with
    | none =>
      cases usr with
      | none => left; rfl
      | some u => right; exact ⟨u, rfl⟩
    | some e2 =>
      cases e2 with
      | errNoRows => cases usr with
        | none => left; rfl
        | some u => left; rfl
      | other s => cases usr with
        | none => left; rfl
        | some u => left; rfl

/-! Path lemmas for CachedUserRep.GetByEmail. -/

theorem getByEmail_hit (c : UserCache) (e : String) (u : User)
    (hhit : UserCache.Get c e = some u) (storeResp : UserResult) :
    CachedUserRep.GetByEmail c e storeResp = ⟨(some u, none), c, 0⟩ := by
  unfold CachedUserRep.GetByEmail
  rw [hhit]

theorem getByEmail_miss_found (c : UserCache) (e : String) (u : User)
    (hmiss : UserCache.Get c e = none) :
    CachedUserRep.GetByEmail c e (some u, none) =
      ⟨(some u, none), UserCache.Set c e u, 1⟩ := by
  unfold CachedUserRep.GetByEmail
  rw [hmiss]

theorem getByEmail_miss_none (c : UserCache) (e : String)
    (hmiss : UserCache.Get c e = none) :
    CachedUserRep.GetByEmail c e (none, none) = ⟨(none, none), c, 1⟩ := by
  unfold CachedUserRep.GetByEmail
  rw [hmiss]

theorem getByEmail_miss_noRows (c : UserCache) (e : String) (usr : Option User)
    (hmiss : UserCache.Get c e = none) :
    CachedUserRep.GetByEmail c e (usr, some StoreErr.errNoRows) =
      ⟨(none, none), c, 1⟩ := by
  unfold CachedUserRep.GetByEmail
  rw [hmiss]
  cases usr with
  | none => rfl
  | some u => rfl

/-! The claims. -/

/-- C1 (amended): on a list() call made while the Cache is empty, if the
Store's list succeeds and returns a sequence of users us whose emails are
pairwise distinct, then the proxy returns us and afterwards, for every user
u in us, the Cache's get(u.email) returns a record equal to u. -/
theorem C1_cold_list_populates (c : UserCache) (us : List User)
    (hcold : c = []) (hnodup : (us.map User.email).Nodup) :
    (CachedUserRep.List c (some us, none)).result = (some us, none) ∧
    ∀ u ∈ us,
      UserCache.Get ((CachedUserRep.List c (some us, none)).cache) u.email
        = some u := by
  subst hcold
  rw [cachedList_cold_ok [] (some us) rfl]
  exact ⟨rfl, fun u hu => populate_get_mem us [] u hu hnodup⟩

/-- Witness for C1: a concrete two-user store response with distinct emails. -/
theorem C1_witness :
    (CachedUserRep.List [] (some [alice, bob], none)).result
      = (some [alice, bob], none) ∧
    ∀ u ∈ [alice, bob],
      UserCache.Get ((CachedUserRep.List [] (some [alice, bob], none)).cache)
        u.email = some u :=
  C1_cold_list_populates [] [alice, bob] rfl (by decide)

/-- C1 as stated is false: with the Cache empty and the Store's list
succeeding with two records sharing the email "a", the proxy returns both
records but the cache entry for "a" equals only the later one, so get does
not return the earlier record. -/
theorem C1_counterexample :
    ¬ ((CachedUserRep.List [] (some [dupA, dupB], none)).result
        = (some [dupA, dupB], none) ∧
       ∀ u ∈ [dupA, dupB],
         UserCache.Get ((CachedUserRep.List [] (some [dupA, dupB], none)).cache)
           u.email = some u) := by
  decide

/-- C2: after a successful create(r) the cache holds r under r.email, the
record just written to the store; and after a getByEmail(e) that misses the
cache and is answered by the store with record u, the proxy returns u and the
cache holds u under e. -/
theorem C2_store_resolution_caches (c : UserCache) (r : User) (e : String)
    (u : User) (hmiss : UserCache.Get c e = none) :
    UserCache.Get ((CachedUserRep.Create c r none).cache) r.email = some r ∧
    (CachedUserRep.GetByEmail c e (some u, none)).result = (some u, none) ∧
    UserCache.Get ((CachedUserRep.GetByEmail c e (some u, none)).cache) e
      = some u := by
  refine ⟨UserCache.get_set_self c r.email r, ?_, ?_⟩ <;>
    rw [getByEmail_miss_found c e u hmiss]
  exact UserCache.get_set_self c e u

/-- Witness for C2 at an empty cache with concrete records. -/
theorem C2_witness :
    UserCache.Get ((CachedUserRep.Create [] alice none).cache) alice.email
      = some alice ∧
    (CachedUserRep.GetByEmail [] "bob@example.com" (some bob, none)).result
      = (some bob, none) ∧
    UserCache.Get
        ((CachedUserRep.GetByEmail [] "bob@example.com" (some bob, none)).cache)
        "bob@example.com" = some bob :=
  C2_store_resolution_caches [] alice "bob@example.com" bob rfl

/-- C3: list() returns the full cache snapshot with no store call exactly
when the cache is non-empty; two list() calls against an empty store (the
store answering an empty slice and no error each time) perform one store
query each, two in total; and once the cache is non-empty a list() call makes
zero store calls and leaves the cache unchanged, so repetitions do too. -/
theorem C3_list_snapshot_policy (c : UserCache) (storeResp : ListResult) :
    ((CachedUserRep.List c storeResp
        = ⟨(some (UserCache.List c), none), c, 0⟩) ↔ UserCache.List c ≠ []) ∧
    ((CachedUserRep.List [] (some [], none)).storeCalls +
       (CachedUserRep.List ((CachedUserRep.List [] (some [], none)).cache)
         (some [], none)).storeCalls = 2) ∧
    (UserCache.List c ≠ [] →
      (CachedUserRep.List c storeResp).storeCalls = 0 ∧
      (CachedUserRep.List c storeResp).cache = c) := by
  refine ⟨⟨?_, fun hne => cachedList_warm c storeResp hne⟩, by decide, ?_⟩
  · intro heq
    by_contra hnil
    obtain ⟨us, err⟩ := storeResp
    cases err with
    | none =>
      rw [cachedList_cold_ok c us hnil] at heq
      have hc := congrArg ProxyOut.storeCalls heq
      simp at hc
    | some e =>
      rw [cachedList_cold_err c us e hnil] at heq
      have hc := congrArg ProxyOut.storeCalls heq
      simp at hc
  · intro hne
    rw [cachedList_warm c storeResp hne]
    exact ⟨rfl, rfl⟩

/-- Witness for C3: a warm one-entry cache answers list() with no store
call and an unchanged cache. -/
theorem C3_witness :
    (CachedUserRep.List [("a", alice)] (none, none)).storeCalls = 0 ∧
    (CachedUserRep.List [("a", alice)] (none, none)).cache = [("a", alice)] :=
  (C3_list_snapshot_policy [("a", alice)] (none, none)).2.2 (by decide)

/-- C4: after create(r) succeeds, getByEmail(r.email) returns r with no
store call, whatever the store would have answered, and leaves the cache as
the create left it. -/
theorem C4_create_then_get (c : UserCache) (r : User) (storeResp : UserResult) :
    CachedUserRep.GetByEmail ((CachedUserRep.Create c r none).cache) r.email
        storeResp =
      ⟨(some r, none), (CachedUserRep.Create c r none).cache, 0⟩ :=
  getByEmail_hit (UserCache.Set c r.email r) r.email r
    (UserCache.get_set_self c r.email r) storeResp

/-- C5: on a cache miss answered by the store with record u and no error,
the proxy returns u after one store call, and an identical second call is a
cache hit: same record, zero store calls, cache unchanged. -/
theorem C5_miss_then_populate (c : UserCache) (e : String) (u : User)
    (hmiss : UserCache.Get c e = none) :
    CachedUserRep.GetByEmail c e (some u, none)
      = ⟨(some u, none), UserCache.Set c e u, 1⟩ ∧
    ∀ storeResp : UserResult,
      CachedUserRep.GetByEmail ((CachedUserRep.GetByEmail c e (some u, none)).cache)
          e storeResp =
        ⟨(some u, none), (CachedUserRep.GetByEmail c e (some u, none)).cache, 0⟩ := by
  have h1 := getByEmail_miss_found c e u hmiss
  refine ⟨h1, fun storeResp => ?_⟩
  rw [h1]
  exact getByEmail_hit (UserCache.Set c e u) e u
    (UserCache.get_set_self c e u) storeResp

/-- Witness for C5 at an empty cache and a concrete record. -/
theorem C5_witness :
    CachedUserRep.GetByEmail [] "alice@example.com" (some alice, none)
      = ⟨(some alice, none), UserCache.Set [] "alice@example.com" alice, 1⟩ ∧
    ∀ storeResp : UserResult,
      CachedUserRep.GetByEmail
          ((CachedUserRep.GetByEmail [] "alice@example.com"
            (some alice, none)).cache) "alice@example.com" storeResp =
        ⟨(some alice, none),
          (CachedUserRep.GetByEmail [] "alice@example.com"
            (some alice, none)).cache, 0⟩ :=
  C5_miss_then_populate [] "alice@example.com" alice rfl

/-- C6: for an email missing from the cache, when the store-level lookup
scans no row (sql.ErrNoRows) UserRep.GetByEmail answers (nil, nil), the proxy
passes that absent-value outcome through with no error and an untouched
cache; and had the store surfaced sql.ErrNoRows itself the proxy would map it
to (nil, nil) as well. -/
theorem C6_not_found_mapping (c : UserCache) (e : String) (z : User)
    (hmiss : UserCache.Get c e = none) :
    UserRep.GetByEmail (some StoreErr.errNoRows) z = (none, none) ∧
    CachedUserRep.GetByEmail c e (UserRep.GetByEmail (some StoreErr.errNoRows) z)
      = ⟨(none, none), c, 1⟩ ∧
    CachedUserRep.GetByEmail c e (none, some StoreErr.errNoRows)
      = ⟨(none, none), c, 1⟩ :=
  ⟨rfl, getByEmail_miss_none c e hmiss, getByEmail_miss_noRows c e none hmiss⟩

/-- Witness for C6 at an empty cache. -/
theorem C6_witness :
    UserRep.GetByEmail (some StoreErr.errNoRows) bob = (none, none) ∧
    CachedUserRep.GetByEmail [] "ghost@example.com"
        (UserRep.GetByEmail (some StoreErr.errNoRows) bob)
      = ⟨(none, none), [], 1⟩ ∧
    CachedUserRep.GetByEmail [] "ghost@example.com"
        (none, some StoreErr.errNoRows)
      = ⟨(none, none), [], 1⟩ :=
  C6_not_found_mapping [] "ghost@example.com" bob rfl

/-- C7: when the store's create fails, the proxy returns that same error and
the cache is exactly what it was before the call. -/
theorem C7_create_error_passthrough (c : UserCache) (r : User) (e : StoreErr) :
    CachedUserRep.Create c r (some e) = ⟨some e, c, 1⟩ :=
  rfl

/-- C8: no operation removes a cache entry. The pure reads Get and List do
not change the cache state at all, and after any state-changing operation
(cache set, proxy create / list / getByEmail) every email that was mapped
before is still mapped. -/
theorem C8_cache_monotone (c : UserCache) (e : String)
    (h : (UserCache.Get c e).isSome = true) :
    (∀ k u, (UserCache.Get (UserCache.Set c k u) e).isSome = true) ∧
    (∀ r storeErr,
      (UserCache.Get ((CachedUserRep.Create c r storeErr).cache) e).isSome
        = true) ∧
    (∀ storeResp : ListResult,
      (UserCache.Get ((CachedUserRep.List c storeResp).cache) e).isSome
        = true) ∧
    (∀ e' storeResp,
      (UserCache.Get ((CachedUserRep.GetByEmail c e' storeResp).cache) e).isSome
        = true) := by
  refine ⟨fun k u => UserCache.get_set_isSome c k e u h,
    fun r storeErr => ?_, fun storeResp => ?_, fun e' storeResp => ?_⟩
  · cases storeErr with
    | none => exact UserCache.get_set_isSome c r.email e r h
    | some e2 => exact h
  · by_cases hw : UserCache.List c ≠ []
    · rw [cachedList_warm c storeResp hw]
      exact h
    · rw [not_not] at hw
      obtain ⟨us, err⟩ := storeResp
      cases err with
      | none =>
        rw [cachedList_cold_ok c us hw]
        exact populate_get_isSome _ c e h
      | some e2 =>
        rw [cachedList_cold_err c us e2 hw]
        exact h
  · rcases getByEmail_cache_cases c e' storeResp with hc | ⟨u, hc⟩
    · rw [hc]
      exact h
    · rw [hc]
      exact UserCache.get_set_isSome c e' e u h

/-- Witness for C8: the entry for "a" survives a create of another record. -/
theorem C8_witness :
    (UserCache.Get ((CachedUserRep.Create [("a", alice)] bob none).cache)
      "a").isSome = true :=
  (C8_cache_monotone [("a", alice)] "a" (by decide)).2.1 bob none

/-- C9 as stated is false: with the distinct emails "a" and "b", the two set
acquisitions are not compatible, because Set takes the exclusive write lock
of the one sync.RWMutex the cache owns, so the calls do block each other. -/
theorem C9_counterexample :
    ¬ (("a" : String) ≠ "b" →
       LockMode.compatible (CacheOp.lockMode (CacheOp.set "a" alice))
         (CacheOp.lockMode (CacheOp.set "b" bob)) = true) := by
  decide

/-- C9 (amended): two concurrent Cache set calls block each other even for
distinct emails, since Set acquires the exclusive write lock; reads are
shared (concurrent get / list pairs are compatible) and writes are exclusive
(a set is incompatible with every concurrent operation). -/
theorem C9_lock_discipline :
    (∀ e1 u1 e2 u2,
      LockMode.compatible (CacheOp.lockMode (CacheOp.set e1 u1))
        (CacheOp.lockMode (CacheOp.set e2 u2)) = false) ∧
    (∀ e1 e2,
      LockMode.compatible (CacheOp.lockMode (CacheOp.get e1))
        (CacheOp.lockMode (CacheOp.get e2)) = true) ∧
    (∀ e1,
      LockMode.compatible (CacheOp.lockMode (CacheOp.get e1))
        (CacheOp.lockMode CacheOp.list) = true) ∧
    (LockMode.compatible (CacheOp.lockMode CacheOp.list)
        (CacheOp.lockMode CacheOp.list) = true) ∧
    (∀ e u op, LockMode.compatible (CacheOp.lockMode (CacheOp.set e u))
        (CacheOp.lockMode op) = false) := by
  refine ⟨fun e1 u1 e2 u2 => rfl, fun e1 e2 => rfl, fun e1 => rfl, rfl,
    fun e u op => ?_⟩
  cases op <;> rfl

/-- C10: on the cold path (empty cache), a store list failure is returned
verbatim together with the store's nil slice, and the cache stays exactly as
it was, empty. -/
theorem C10_cold_list_error (c : UserCache) (e : StoreErr) (hcold : c = []) :
    CachedUserRep.List c (none, some e) = ⟨(none, some e), c, 1⟩ := by
  subst hcold
  rfl

/-- Witness for C10 at a concrete store error. -/
theorem C10_witness :
    CachedUserRep.List [] (none, some (StoreErr.other "db down")) =
      ⟨(none, some (StoreErr.other "db down")), [], 1⟩ :=
  C10_cold_list_error [] (StoreErr.other "db down") rfl
